import Mathlib

/-!
Shallow embedding of the OpenOMCI MIB/alarm database layer, the alarm
synchronizer's bitmap diffing and reconciliation, the lazy-write database
wrapper and the agent device map of the pyvoltha repository, together with
theorems settling the specified properties.

Python dictionaries backed by string / tuple keys are modelled as
association lists; the etcd key-value backend is modelled as a partial map
whose protobuf serialize/parse round-trip is the identity on the typed
records.  Python exceptions become values of an error type carried in
`Except`.
-/

namespace PyVoltha

/-- Python exceptions raised by the database layer. -/
inductive DbError where
  | databaseStateError
  | keyError
  | valueError
  | typeError
deriving DecidableEq, Repr

/-- Lookup in an association list (first binding wins, as in a dict). -/
def assocGet {α β : Type} [BEq α] (l : List (α × β)) (k : α) : Option β :=
  (l.find? (fun p => p.1 == k)).map (·.2)

/-- Overwrite / insert a binding, keeping the position of an existing key. -/
def assocSet {α β : Type} [BEq α] (l : List (α × β)) (k : α) (v : β) : List (α × β) :=
  match l with
  | [] => [(k, v)]
  | (k', v') :: rest =>
    if k' == k then (k, v) :: rest else (k', v') :: assocSet rest k v

/-- Delete the binding of a key, if present. -/
def assocDelete {α β : Type} [BEq α] (l : List (α × β)) (k : α) : List (α × β) :=
  match l with
  | [] => []
  | (k', v') :: rest =>
    if k' == k then rest else (k', v') :: assocDelete rest k

theorem assocGet_nil {α β : Type} [BEq α] (k : α) :
    assocGet ([] : List (α × β)) k = none := rfl

theorem assocGet_cons {α β : Type} [BEq α] (p : α × β) (rest : List (α × β)) (k : α) :
    assocGet (p :: rest) k = if p.1 == k then some p.2 else assocGet rest k := by
  simp only [assocGet, List.find?]
  cases h : p.1 == k <;> simp

theorem assocSet_cons {α β : Type} [BEq α] (p : α × β) (rest : List (α × β))
    (k : α) (v : β) :
    assocSet (p :: rest) k v =
      if p.1 == k then (k, v) :: rest else p :: assocSet rest k v := rfl

theorem assocDelete_cons {α β : Type} [BEq α] (p : α × β) (rest : List (α × β)) (k : α) :
    assocDelete (p :: rest) k =
      if p.1 == k then rest else p :: assocDelete rest k := rfl

theorem assocGet_assocSet_self {α β : Type} [BEq α] [LawfulBEq α]
    (l : List (α × β)) (k : α) (v : β) :
    assocGet (assocSet l k v) k = some v := by
  induction l with
  | nil => simp [assocGet, assocSet]
  | cons p rest ih =>
    rw [assocSet_cons]
    by_cases h : p.1 = k
    · simp [assocGet_cons, h]
    · rw [if_neg (by simpa using h), assocGet_cons, if_neg (by simpa using h)]
      exact ih

theorem assocGet_assocSet_ne {α β : Type} [BEq α] [LawfulBEq α]
    (l : List (α × β)) (k k' : α) (v : β) (h : k ≠ k') :
    assocGet (assocSet l k v) k' = assocGet l k' := by
  induction l with
  | nil =>
    show assocGet [(k, v)] k' = none
    rw [assocGet_cons, if_neg (by simpa using h)]
    rfl
  | cons p rest ih =>
    rw [assocSet_cons]
    by_cases hp : p.1 = k
    · rw [if_pos (by simpa using hp), assocGet_cons, assocGet_cons,
        if_neg (by simpa using h), hp, if_neg (by simpa using h)]
    · rw [if_neg (by simpa using hp), assocGet_cons, assocGet_cons]
      by_cases hq : p.1 = k'
      · simp [hq]
      · rw [if_neg (by simpa using hq), if_neg (by simpa using hq)]
        exact ih

theorem assocGet_assocDelete_self {α β : Type} [BEq α] [LawfulBEq α]
    (l : List (α × β)) (k : α) (hnd : (l.map Prod.fst).Nodup) :
    assocGet (assocDelete l k) k = none := by
  induction l with
  | nil => simp [assocGet, assocDelete]
  | cons p rest ih =>
    simp only [List.map_cons, List.nodup_cons] at hnd
    rw [assocDelete_cons]
    by_cases hp : p.1 = k
    · rw [if_pos (by simpa using hp)]
      simp only [assocGet]
      rw [List.find?_eq_none.mpr]
      · rfl
      · intro q hq hqk
        exact hnd.1 (List.mem_map.mpr ⟨q, hq, by
          have : q.1 = k := by simpa using hqk
          rw [this, hp]⟩)
    · rw [if_neg (by simpa using hp), assocGet_cons, if_neg (by simpa using hp)]
      exact ih hnd.2

theorem assocGet_assocDelete_ne {α β : Type} [BEq α] [LawfulBEq α]
    (l : List (α × β)) (k k' : α) (h : k ≠ k') :
    assocGet (assocDelete l k) k' = assocGet l k' := by
  induction l with
  | nil => simp [assocGet, assocDelete]
  | cons p rest ih =>
    rw [assocDelete_cons]
    by_cases hp : p.1 = k
    · rw [if_pos (by simpa using hp), assocGet_cons, if_neg (by simpa [hp] using h)]
    · rw [if_neg (by simpa using hp), assocGet_cons, assocGet_cons]
      by_cases hq : p.1 = k'
      · simp [hq]
      · rw [if_neg (by simpa using hq), if_neg (by simpa using hq)]
        exact ih

/-! ## Alarm bitmap diffing (AlarmSynchronizer.process_alarm_data)

The synchronizer compares the previously stored 224-bit alarm bitmap with
the newly received one; alarm number `i` is bit `223 - i` of the integer
(bit 0 is the most significant of the 224 bits). -/

/-- Alarm numbers whose bit is set: `{alarm_no for alarm_no in range(224)
if bitmap & (1 << (223-alarm_no)) != 0}`. -/
def raisedAlarms (bitmap : Nat) : Finset Nat :=
  (Finset.range 224).filter (fun alarmNo => bitmap &&& (1 <<< (223 - alarmNo)) ≠ 0)

/-- `newly_cleared = previously_raised - currently_raised`. -/
def newlyCleared (prevBitmap bitmap : Nat) : Finset Nat :=
  raisedAlarms prevBitmap \ raisedAlarms bitmap

/-- `newly_raised = currently_raised - previously_raised`. -/
def newlyRaised (prevBitmap bitmap : Nat) : Finset Nat :=
  raisedAlarms bitmap \ raisedAlarms prevBitmap

/-- One raise/clear event dispatched via `reactor.callLater`. -/
structure AlarmEvent where
  isRaise : Bool
  classId : Nat
  entityId : Nat
  alarmNo : Nat
deriving DecidableEq, Repr

/-- The events emitted for one processed bitmap change: a clear for each
newly cleared alarm number, then a raise for each newly raised one. -/
def alarmEvents (classId entityId prevBitmap bitmap : Nat) : List AlarmEvent :=
  (((newlyCleared prevBitmap bitmap).sort (· ≤ ·)).map
      (fun n => AlarmEvent.mk false classId entityId n)) ++
  (((newlyRaised prevBitmap bitmap).sort (· ≤ ·)).map
      (fun n => AlarmEvent.mk true classId entityId n))

/-- C2: the newly raised and newly cleared alarm sets computed from an old
bitmap B0 and a new bitmap B1 are disjoint, and when the new bitmap equals
the old one both sets are empty, so re-applying the same bitmap emits no
raise or clear events. -/
theorem alarm_bitmap_diff_disjoint_and_idempotent (b0 b1 : Nat)
    (classId entityId : Nat) :
    Disjoint (newlyRaised b0 b1) (newlyCleared b0 b1) ∧
    newlyRaised b0 b0 = ∅ ∧ newlyCleared b0 b0 = ∅ ∧
    alarmEvents classId entityId b0 b0 = [] := by
  refine ⟨?_, ?_, ?_, ?_⟩
  · exact disjoint_sdiff_sdiff
  · simp [newlyRaised]
  · simp [newlyCleared]
  · simp [alarmEvents, newlyCleared, newlyRaised]

/-! ## MIB database records (voltha_protos omci_mib_db messages)

The protobuf serialize/parse round-trip is modelled as the identity, so the
etcd store maps the device path `"{device_id}"` to a `MibDeviceData` and the
class path `"{device_id}/classes/{class_id}"` to a `MibClassData`; the two
path shapes are kept apart as two association lists keyed by `device_id`
and `(device_id, class_id)` respectively. -/

structure MibAttributeData where
  name : String
  value : String
deriving DecidableEq, Repr

structure MibInstanceData where
  instance_id : Nat
  created : String
  modified : String
  attributes : List MibAttributeData
deriving DecidableEq, Repr

structure MibClassData where
  class_id : Nat
  instances : List MibInstanceData
deriving DecidableEq, Repr

structure ManagedEntity where
  class_id : Nat
  name : String
deriving DecidableEq, Repr

structure MibDeviceData where
  device_id : String
  created : String
  last_sync_time : String
  mib_data_sync : Nat
  version : Nat
  classes : List MibClassData
  managed_entities : List ManagedEntity
  message_types : List Nat
deriving DecidableEq, Repr

/-- `MibDbExternal.CURRENT_VERSION`. -/
def CURRENT_VERSION : Nat := 1

/-- The etcd store seen by `MibDbExternal`, split by the two path shapes. -/
structure MibKvStore where
  devices : List (String × MibDeviceData)
  classes : List ((String × Nat) × MibClassData)
deriving DecidableEq, Repr

/-- `MibDbExternal._create_new_device`. -/
def createNewDevice (now : String) (deviceId : String) : MibDeviceData :=
  { device_id := deviceId
    created := now
    last_sync_time := ""
    mib_data_sync := 0
    version := CURRENT_VERSION
    classes := []
    managed_entities := []
    message_types := [] }

/-- `MibDbExternal.add`: create a device root record; a second add of the
same device raises KeyError unless `overwrite` is set. -/
def mibAdd (now : String) (deviceId : String) (overwrite : Bool)
    (kv : MibKvStore) : Except DbError MibKvStore :=
  match assocGet kv.devices deviceId with
  | none =>
    .ok { kv with devices := assocSet kv.devices deviceId (createNewDevice now deviceId) }
  | some _ =>
    if overwrite then
      .ok { kv with devices := assocSet kv.devices deviceId (createNewDevice now deviceId) }
    else
      .error .keyError

/-- `MibDbExternal._create_new_instance`: encode every attribute through
the codec (old value `none`) and stamp `created = modified = now`.  The
codec `_attribute_to_string` is the abstract parameter `encode`, taking the
class id, attribute name, native value and optional old string value. -/
def createNewInstance {V : Type} (encode : Nat → String → V → Option String → String)
    (now : String) (classId entityId : Nat) (attributes : List (String × V)) :
    MibInstanceData :=
  { instance_id := entityId
    created := now
    modified := now
    attributes := attributes.map (fun p => ⟨p.1, encode classId p.1 p.2 none⟩) }

/-- Index of the last stored attribute named `k` (the source builds
`exist_attr_indexes` by iterating all attributes, so a later index wins). -/
def existIdx (base : List MibAttributeData) (k : String) : Option Nat :=
  match base with
  | [] => none
  | a :: rest =>
    (existIdx rest k).elim (if a.name == k then some 0 else none) (fun i => some (i + 1))

/-- Replace the value stored at index `i`, keeping the name (the source
mutates `new_attributes[index].value`). -/
def setValueAt (attrs : List MibAttributeData) (i : Nat) (sv : String) :
    List MibAttributeData :=
  (attrs.get? i).elim attrs (fun a => attrs.set i ⟨a.name, sv⟩)

/-- One iteration of the `for k, v in attributes.items()` loop of
`MibDbExternal._update_existing_instance`, on the accumulated attribute
list and modified flag. -/
def updateStep {V : Type} (encode : Nat → String → V → Option String → String)
    (classId : Nat) (base : List MibAttributeData)
    (acc : List MibAttributeData × Bool) (p : String × V) :
    List MibAttributeData × Bool :=
  (existIdx base p.1).elim
    (acc.1 ++ [⟨p.1, encode classId p.1 p.2 none⟩], true)
    (fun i =>
      (acc.1.get? i).elim acc (fun a =>
        if a.value == encode classId p.1 p.2 (some a.value) then acc
        else (setValueAt acc.1 i (encode classId p.1 p.2 (some a.value)), true)))

/-- `MibDbExternal._update_existing_instance`: returns the updated instance
(created timestamp preserved, modified stamped `now`) or `none` when no
attribute changed after string-encoding. -/
def updateExistingInstance {V : Type} (encode : Nat → String → V → Option String → String)
    (now : String) (classId entityId : Nat) (attributes : List (String × V))
    (existing : MibInstanceData) : Option MibInstanceData :=
  if (attributes.foldl (updateStep encode classId existing.attributes)
      (existing.attributes, false)).2 then
    some { instance_id := entityId
           created := existing.created
           modified := now
           attributes := (attributes.foldl (updateStep encode classId existing.attributes)
             (existing.attributes, false)).1 }
  else none

/-- `MibDbExternal.set`: upsert one instance's attributes, returning whether
anything was written.  Parsing the device blob of an unknown device raises
(`ParseFromString(None)`), modelled as `typeError`. -/
def mibSet {V : Type} (encode : Nat → String → V → Option String → String)
    (started : Bool) (now : String) (deviceId : String) (classId entityId : Nat)
    (attributes : List (String × V)) (kv : MibKvStore) :
    Except DbError (Bool × MibKvStore) :=
  if ¬ (classId ≤ 0xFFFF) then .error .valueError
  else if ¬ (entityId ≤ 0xFFFF) then .error .valueError
  else if ¬ started then .error .databaseStateError
  else
    (assocGet kv.classes (deviceId, classId)).elim
      -- class path absent: record a slim class pointer in the device blob,
      -- then store a fully populated class blob
      ((assocGet kv.devices deviceId).elim (.error .typeError) (fun devData =>
        let devData' := { devData with classes := devData.classes ++ [⟨classId, []⟩] }
        let newClass : MibClassData :=
          ⟨classId, [createNewInstance encode now classId entityId attributes]⟩
        .ok (true,
          { devices := assocSet kv.devices deviceId devData'
            classes := assocSet kv.classes (deviceId, classId) newClass })))
      (fun classData =>
        (classData.instances.find? (fun i => i.instance_id == entityId)).elim
          (let newInst := createNewInstance encode now classId entityId attributes
           let classData' := { classData with instances := classData.instances ++ [newInst] }
           .ok (true, { kv with classes := assocSet kv.classes (deviceId, classId) classData' }))
          (fun instData =>
            (updateExistingInstance encode now classId entityId attributes instData).elim
              (.ok (false, kv))
              (fun newInst =>
                let rest := classData.instances.eraseP (fun i => i.instance_id == entityId)
                let classData' := { classData with instances := rest ++ [newInst] }
                .ok (true,
                  { kv with classes := assocSet kv.classes (deviceId, classId) classData' }))))

/-- `MibDbExternal.delete`: remove one instance; when the class blob ends up
with no instances, remove the class blob and the device blob's class
pointer.  When the class blob is absent the call returns `false`. -/
def mibDelete (started : Bool) (deviceId : String) (classId entityId : Nat)
    (kv : MibKvStore) : Except DbError (Bool × MibKvStore) :=
  if ¬ started then .error .databaseStateError
  else if ¬ (classId ≤ 0xFFFF) then .error .valueError
  else if ¬ (entityId ≤ 0xFFFF) then .error .valueError
  else
    match assocGet kv.classes (deviceId, classId) with
    | none => .ok (false, kv)
    | some classData =>
      let found := (classData.instances.find? (fun i => i.instance_id == entityId)).isSome
      let instances' :=
        if found then classData.instances.eraseP (fun i => i.instance_id == entityId)
        else classData.instances
      let classData' := { classData with instances := instances' }
      let kv₁ :=
        if found then
          { kv with classes := assocSet kv.classes (deviceId, classId) classData' }
        else kv
      if instances'.length = 0 then
        let kv₂ := { kv₁ with classes := assocDelete kv₁.classes (deviceId, classId) }
        match assocGet kv₂.devices deviceId with
        | none => .error .typeError
        | some devData =>
          if (devData.classes.find? (fun c => c.class_id == classId)).isSome then
            let devData' := { devData with
              classes := devData.classes.eraseP (fun c => c.class_id == classId) }
            .ok (true, { kv₂ with devices := assocSet kv₂.devices deviceId devData' })
          else
            .ok (true, kv₂)
      else
        .ok (true, kv₁)

/-- `MibDbExternal.query` with only a device id: the per-class sub-queries
of a full device read, paired with the device blob.  An absent device blob
yields `none`, which stands for the empty dictionary the source returns. -/
def mibQueryDevice (kv : MibKvStore) (deviceId : String) :
    Except DbError (Option (MibDeviceData × List (Nat × Option MibClassData))) :=
  match assocGet kv.devices deviceId with
  | none => .ok none
  | some devData =>
    .ok (some (devData,
      devData.classes.map (fun c => (c.class_id, assocGet kv.classes (deviceId, c.class_id)))))

/-- `MibDbExternal.query` with a device id and class id: all instances of
the class.  An absent class blob yields `none` — the empty dictionary. -/
def mibQueryClass (started : Bool) (kv : MibKvStore) (deviceId : String)
    (classId : Nat) : Except DbError (Option MibClassData) :=
  if ¬ started then .error .databaseStateError
  else if ¬ (classId ≤ 0xFFFF) then .error .valueError
  else .ok (assocGet kv.classes (deviceId, classId))

/-- `MibDbExternal.query` down to one instance: the instance record, or
`none` for the empty dictionary when class or instance is absent. -/
def mibQueryInstance (started : Bool) (kv : MibKvStore) (deviceId : String)
    (classId instanceId : Nat) : Except DbError (Option MibInstanceData) :=
  if ¬ started then .error .databaseStateError
  else if ¬ (classId ≤ 0xFFFF) then .error .valueError
  else
    (assocGet kv.classes (deviceId, classId)).elim
      (.ok none)
      (fun classData =>
        .ok (classData.instances.foldl
          (fun acc inst => if inst.instance_id == instanceId then some inst else acc) none))

/-- `MibDbExternal.on_mib_reset`: delete every class blob listed in the
device blob, then rewrite the device blob keeping only `device_id`,
`created`, `last_sync_time`, a zeroed `mib_data_sync` and the current
version.  An unknown device is only logged. -/
def onMibReset (deviceId : String) (kv : MibKvStore) : MibKvStore :=
  (assocGet kv.devices deviceId).elim kv (fun data =>
    let kv₁ := data.classes.foldl
      (fun acc c => { acc with classes := assocDelete acc.classes (deviceId, c.class_id) }) kv
    let newData : MibDeviceData :=
      { device_id := deviceId
        created := data.created
        last_sync_time := data.last_sync_time
        mib_data_sync := 0
        version := CURRENT_VERSION
        classes := []
        managed_entities := []
        message_types := [] }
    { kv₁ with devices := assocSet kv₁.devices deviceId newData })

/-! ## Change detection in `MibDbExternal.set` (C1) -/

/-- The incoming attribute `p` agrees with the stored instance after
string-encoding: some stored attribute has its name, and encoding the
incoming value (against that stored string) reproduces the stored string. -/
def sameAt {V : Type} (encode : Nat → String → V → Option String → String)
    (classId : Nat) (base : List MibAttributeData) (p : String × V) : Prop :=
  ∃ a ∈ base, a.name = p.1 ∧ encode classId p.1 p.2 (some a.value) = a.value

/-- The incoming attribute `p` differs from the stored instance after
string-encoding (it is new, or encoding the incoming value differs from
every stored attribute of its name). -/
def diffAt {V : Type} (encode : Nat → String → V → Option String → String)
    (classId : Nat) (base : List MibAttributeData) (p : String × V) : Prop :=
  ∀ a ∈ base, a.name = p.1 → encode classId p.1 p.2 (some a.value) ≠ a.value

theorem existIdx_eq_none_iff (base : List MibAttributeData) (k : String) :
    existIdx base k = none ↔ ∀ a ∈ base, a.name ≠ k := by
  induction base with
  | nil => simp [existIdx]
  | cons a rest ih =>
    simp only [existIdx]
    cases h : existIdx rest k with
    | some i =>
      simp only [Option.elim_some]
      constructor
      · intro hcon; cases hcon
      · intro hall
        exfalso
        have h0 := ih.mpr (fun b hb => hall b (List.mem_cons_of_mem _ hb))
        rw [h0] at h; cases h
    | none =>
      simp only [Option.elim_none]
      by_cases hname : a.name = k
      · rw [if_pos (by simpa using hname)]
        constructor
        · intro hcon; cases hcon
        · intro hall; exact absurd hname (hall a (List.mem_cons_self a rest))
      · rw [if_neg (show ¬ ((a.name == k) = true) from by simpa using hname)]
        constructor
        · intro _ b hb
          rcases List.mem_cons.mp hb with rfl | hb'
          · exact hname
          · exact (ih.mp h) b hb'
        · intro _; rfl

theorem existIdx_get (base : List MibAttributeData) (k : String) (i : Nat)
    (h : existIdx base k = some i) :
    ∃ a, base.get? i = some a ∧ a.name = k := by
  induction base generalizing i with
  | nil => cases h
  | cons a rest ih =>
    simp only [existIdx] at h
    cases hr : existIdx rest k with
    | some j =>
      rw [hr, Option.elim_some] at h
      injection h with h
      subst h
      obtain ⟨b, hb, hbn⟩ := ih j hr
      exact ⟨b, by simpa using hb, hbn⟩
    | none =>
      rw [hr, Option.elim_none] at h
      by_cases hname : a.name = k
      · rw [if_pos (by simpa using hname)] at h
        injection h with h
        subst h
        exact ⟨a, rfl, hname⟩
      · rw [if_neg (show ¬ ((a.name == k) = true) from by simpa using hname)] at h
        cases h

theorem existIdx_isSome_of_mem (base : List MibAttributeData) (k : String)
    (a : MibAttributeData) (ha : a ∈ base) (hname : a.name = k) :
    ∃ i, existIdx base k = some i := by
  cases h : existIdx base k with
  | some i => exact ⟨i, rfl⟩
  | none => exact absurd hname ((existIdx_eq_none_iff base k).mp h a ha)

/-- Within a stored attribute list with pairwise distinct names, an
attribute is determined by its name. -/
theorem attr_unique_of_nodup (base : List MibAttributeData)
    (hnd : (base.map MibAttributeData.name).Nodup)
    (i : Nat) (c a : MibAttributeData) (hc : base.get? i = some c)
    (ha : a ∈ base) (hname : a.name = c.name) : a = c := by
  obtain ⟨j, hja⟩ := List.mem_iff_get.mp ha
  have hja' : base.get? (j : Nat) = some a := by
    rw [List.get?_eq_some]
    exact ⟨j.isLt, hja⟩
  obtain ⟨hlen, -⟩ := List.get?_eq_some.mp hc
  have hmapi : (base.map MibAttributeData.name).get? i = some c.name := by
    rw [List.get?_map, hc]; rfl
  have hmapj : (base.map MibAttributeData.name).get? (j : Nat) = some a.name := by
    rw [List.get?_map, hja']; rfl
  have hij : i = (j : Nat) := by
    apply List.get?_inj (by simpa using hlen) hnd
    rw [hmapi, hmapj, hname]
  have h1 : base.get? (j : Nat) = some c := by rw [← hij]; exact hc
  have h2 : some a = some c := by rw [← hja']; exact h1
  exact Option.some.inj h2

theorem updateStep_of_sameAt {V : Type}
    (encode : Nat → String → V → Option String → String) (classId : Nat)
    (base : List MibAttributeData)
    (hnd : (base.map MibAttributeData.name).Nodup)
    (p : String × V) (hp : sameAt encode classId base p) (m : Bool) :
    updateStep encode classId base (base, m) p = (base, m) := by
  obtain ⟨a, ha_mem, ha_name, ha_enc⟩ := hp
  obtain ⟨i, hi⟩ := existIdx_isSome_of_mem base p.1 a ha_mem ha_name
  obtain ⟨c, hc_get, hc_name⟩ := existIdx_get base p.1 i hi
  have hac : a = c := attr_unique_of_nodup base hnd i c a hc_get ha_mem
    (by rw [ha_name, hc_name])
  subst hac
  have hc' : base[i]? = some a := by
    rw [← List.get?_eq_getElem?]
    exact hc_get
  simp [updateStep, hi, hc', ha_enc]

theorem foldl_of_all_same {V : Type}
    (encode : Nat → String → V → Option String → String) (classId : Nat)
    (base : List MibAttributeData)
    (hnd : (base.map MibAttributeData.name).Nodup)
    (l : List (String × V)) (hl : ∀ p ∈ l, sameAt encode classId base p) (m : Bool) :
    l.foldl (updateStep encode classId base) (base, m) = (base, m) := by
  induction l with
  | nil => rfl
  | cons p rest ih =>
    rw [List.foldl_cons,
      updateStep_of_sameAt encode classId base hnd p (hl p (List.mem_cons_self p rest)) m]
    exact ih (fun q hq => hl q (List.mem_cons_of_mem p hq))

theorem updateStep_true {V : Type}
    (encode : Nat → String → V → Option String → String) (classId : Nat)
    (base : List MibAttributeData) (acc : List MibAttributeData × Bool)
    (hacc : acc.2 = true) (p : String × V) :
    (updateStep encode classId base acc p).2 = true := by
  simp only [updateStep]
  cases existIdx base p.1 with
  | none => rfl
  | some i =>
    simp only [Option.elim_some]
    cases acc.1.get? i with
    | none => simpa using hacc
    | some a =>
      simp only [Option.elim_some]
      by_cases h : a.value == encode classId p.1 p.2 (some a.value)
      · rw [if_pos h]; exact hacc
      · rw [if_neg h]

theorem foldl_true {V : Type}
    (encode : Nat → String → V → Option String → String) (classId : Nat)
    (base : List MibAttributeData) (l : List (String × V)) :
    ∀ acc : List MibAttributeData × Bool, acc.2 = true →
      (l.foldl (updateStep encode classId base) acc).2 = true := by
  induction l with
  | nil => intro acc hacc; simpa using hacc
  | cons p rest ih =>
    intro acc hacc
    rw [List.foldl_cons]
    exact ih _ (updateStep_true encode classId base acc hacc p)

theorem updateStep_get?_preserved {V : Type}
    (encode : Nat → String → V → Option String → String) (classId : Nat)
    (base : List MibAttributeData)
    (i : Nat) (k : String) (hi : existIdx base k = some i)
    (acc : List MibAttributeData × Bool) (p : String × V) (hk : p.1 ≠ k)
    (hsome : (acc.1.get? i).isSome) :
    (updateStep encode classId base acc p).1.get? i = acc.1.get? i := by
  simp only [updateStep]
  cases hj : existIdx base p.1 with
  | none =>
    simp only [Option.elim_none]
    have hlen : i < acc.1.length := by
      cases h : acc.1.get? i with
      | none => rw [h] at hsome; cases hsome
      | some a =>
        obtain ⟨hl, -⟩ := List.get?_eq_some.mp h
        exact hl
    exact List.get?_append hlen
  | some j =>
    have hij : j ≠ i := by
      intro h
      subst h
      obtain ⟨c, hc, hcn⟩ := existIdx_get base p.1 j hj
      obtain ⟨c', hc', hcn'⟩ := existIdx_get base k j hi
      rw [hc] at hc'
      injection hc' with hc'
      subst hc'
      exact hk (by rw [← hcn, hcn'])
    simp only [Option.elim_some]
    cases hg : acc.1.get? j with
    | none => rfl
    | some a =>
      simp only [Option.elim_some]
      by_cases hbe : a.value == encode classId p.1 p.2 (some a.value)
      · rw [if_pos hbe]
      · rw [if_neg hbe]
        simp only [setValueAt, hg, Option.elim_some]
        exact List.get?_set_ne _ _ hij

theorem foldl_get?_preserved {V : Type}
    (encode : Nat → String → V → Option String → String) (classId : Nat)
    (base : List MibAttributeData)
    (i : Nat) (k : String) (hi : existIdx base k = some i)
    (l : List (String × V)) (hk : ∀ p ∈ l, p.1 ≠ k) :
    ∀ acc : List MibAttributeData × Bool, (acc.1.get? i).isSome →
      (l.foldl (updateStep encode classId base) acc).1.get? i = acc.1.get? i := by
  induction l with
  | nil => intro acc _; rfl
  | cons p rest ih =>
    intro acc hsome
    rw [List.foldl_cons]
    have hstep := updateStep_get?_preserved encode classId base i k hi acc p
      (hk p (List.mem_cons_self p rest)) hsome
    rw [ih (fun q hq => hk q (List.mem_cons_of_mem p hq)) _ (by rw [hstep]; exact hsome)]
    exact hstep

theorem updateStep_sets_true {V : Type}
    (encode : Nat → String → V → Option String → String) (classId : Nat)
    (base : List MibAttributeData)
    (acc : List MibAttributeData × Bool) (p : String × V)
    (hdiff : diffAt encode classId base p)
    (hacc : ∀ i, existIdx base p.1 = some i → acc.1.get? i = base.get? i) :
    (updateStep encode classId base acc p).2 = true := by
  simp only [updateStep]
  cases hj : existIdx base p.1 with
  | none => rfl
  | some i =>
    simp only [Option.elim_some]
    obtain ⟨c, hc, hcn⟩ := existIdx_get base p.1 i hj
    rw [hacc i hj, hc]
    simp only [Option.elim_some]
    have hne : encode classId p.1 p.2 (some c.value) ≠ c.value :=
      hdiff c (List.get?_mem hc) hcn
    rw [if_neg (show ¬ ((c.value == encode classId p.1 p.2 (some c.value)) = true) from
      fun hbeq => hne (beq_iff_eq.mp hbeq).symm)]

theorem foldl_sets_true {V : Type}
    (encode : Nat → String → V → Option String → String) (classId : Nat)
    (base : List MibAttributeData)
    (hnd : (base.map MibAttributeData.name).Nodup)
    (l : List (String × V)) (hkeys : (l.map Prod.fst).Nodup)
    (p : String × V) (hp : p ∈ l) (hdiff : diffAt encode classId base p) :
    (l.foldl (updateStep encode classId base) (base, false)).2 = true := by
  obtain ⟨l₁, l₂, rfl⟩ := List.append_of_mem hp
  rw [List.foldl_append, List.foldl_cons]
  set acc₁ := l₁.foldl (updateStep encode classId base) (base, false) with hacc₁
  have hknotin : ∀ q ∈ l₁, q.1 ≠ p.1 := by
    intro q hq hqp
    have hnd2 : (l₁.map Prod.fst ++ p.1 :: l₂.map Prod.fst).Nodup := by
      simpa using hkeys
    have hdisj := (List.nodup_append.mp hnd2).2.2
    exact hdisj (List.mem_map.mpr ⟨q, hq, rfl⟩)
      (by rw [hqp]; exact List.mem_cons_self _ _)
  have hpres : ∀ i, existIdx base p.1 = some i → acc₁.1.get? i = base.get? i := by
    intro i hi
    have hps : (((base, false) : List MibAttributeData × Bool).1.get? i).isSome := by
      obtain ⟨c, hc, -⟩ := existIdx_get base p.1 i hi
      show (base.get? i).isSome
      rw [hc]; rfl
    exact foldl_get?_preserved encode classId base i p.1 hi l₁ hknotin (base, false) hps
  exact foldl_true encode classId base l₂ _
    (updateStep_sets_true encode classId base acc₁ p hdiff hpres)

theorem mibQueryInstance_last_match (l : List MibInstanceData)
    (newInst : MibInstanceData) (entityId : Nat)
    (hid : newInst.instance_id = entityId) (acc : Option MibInstanceData) :
    (l ++ [newInst]).foldl
      (fun acc inst => if inst.instance_id == entityId then some inst else acc) acc
      = some newInst := by
  rw [List.foldl_append]
  simp [hid]

/-- C1: on a started database, for an existing instance, `set` with every
attribute equal (after string-encoding) to the stored value returns
`false` and leaves the database untouched; `set` with at least one
attribute that differs after encoding (or is new) returns `true` and the
re-queried instance keeps its `created` timestamp while its `modified`
timestamp becomes the set time. -/
theorem mib_set_change_detection {V : Type}
    (encode : Nat → String → V → Option String → String)
    (now : String) (kv : MibKvStore) (deviceId : String)
    (classId entityId : Nat) (attributes : List (String × V))
    (classData : MibClassData) (inst : MibInstanceData)
    (hcls : classId ≤ 0xFFFF) (hent : entityId ≤ 0xFFFF)
    (hclass : assocGet kv.classes (deviceId, classId) = some classData)
    (hinst : classData.instances.find? (fun i => i.instance_id == entityId) = some inst)
    (hnames : (inst.attributes.map MibAttributeData.name).Nodup)
    (hkeys : (attributes.map Prod.fst).Nodup) :
    ((∀ p ∈ attributes, sameAt encode classId inst.attributes p) →
        mibSet encode true now deviceId classId entityId attributes kv = .ok (false, kv)) ∧
    ((∃ p ∈ attributes, diffAt encode classId inst.attributes p) →
        ∃ kv' : MibKvStore, ∃ inst' : MibInstanceData,
          mibSet encode true now deviceId classId entityId attributes kv = .ok (true, kv') ∧
          mibQueryInstance true kv' deviceId classId entityId = .ok (some inst') ∧
          inst'.created = inst.created ∧ inst'.modified = now) := by
  constructor
  · intro hsame
    have hfold := foldl_of_all_same encode classId inst.attributes hnames
      attributes hsame false
    simp only [mibSet, if_neg (show ¬¬(classId ≤ 0xFFFF) from not_not_intro hcls),
      if_neg (show ¬¬(entityId ≤ 0xFFFF) from not_not_intro hent),
      if_neg (show ¬¬(true = true) from by simp),
      hclass, Option.elim_some, hinst, updateExistingInstance, hfold]
    rfl
  · rintro ⟨p, hp, hdiff⟩
    have hfold := foldl_sets_true encode classId inst.attributes hnames
      attributes hkeys p hp hdiff
    set r := attributes.foldl (updateStep encode classId inst.attributes)
      (inst.attributes, false) with hr
    have hupd : updateExistingInstance encode now classId entityId attributes inst
        = some ⟨entityId, inst.created, now, r.1⟩ := by
      simp only [updateExistingInstance, ← hr, hfold, if_true]
    refine ⟨⟨kv.devices, assocSet kv.classes (deviceId, classId)
        ⟨classData.class_id,
          classData.instances.eraseP (fun i => i.instance_id == entityId) ++
            [⟨entityId, inst.created, now, r.1⟩]⟩⟩,
      ⟨entityId, inst.created, now, r.1⟩, ?_, ?_, rfl, rfl⟩
    · simp only [mibSet, if_neg (show ¬¬(classId ≤ 0xFFFF) from not_not_intro hcls),
        if_neg (show ¬¬(entityId ≤ 0xFFFF) from not_not_intro hent),
        hclass, Option.elim_some, hinst, hupd]
      simp
    · simp only [mibQueryInstance,
        if_neg (show ¬¬(classId ≤ 0xFFFF) from not_not_intro hcls),
        assocGet_assocSet_self, Option.elim_some]
      rw [mibQueryInstance_last_match _ _ entityId rfl none]
      simp

/-- C1 witness: a concrete started database with one instance
`{a ↦ "1", b ↦ "2"}` of class 7; re-setting `{a ↦ 1, b ↦ 2}` (encoded by
`toString`) reports unchanged and leaves the store as-is, while setting
`{a ↦ 3}` reports changed with `created` preserved and `modified` stamped. -/
theorem mib_set_change_detection_witness :
    (mibSet (fun _ _ (v : Nat) _ => toString v) true "t1" "d" 7 1
        [("a", 1), ("b", 2)]
        ⟨[("d", createNewDevice "t0" "d")], [(("d", 7), ⟨7, [⟨1, "t0", "t0",
          [⟨"a", "1"⟩, ⟨"b", "2"⟩]⟩]⟩)]⟩
      = .ok (false, ⟨[("d", createNewDevice "t0" "d")], [(("d", 7), ⟨7, [⟨1, "t0", "t0",
          [⟨"a", "1"⟩, ⟨"b", "2"⟩]⟩]⟩)]⟩)) ∧
    (∃ kv' : MibKvStore, ∃ inst' : MibInstanceData,
        mibSet (fun _ _ (v : Nat) _ => toString v) true "t1" "d" 7 1 [("a", 3)]
          ⟨[("d", createNewDevice "t0" "d")], [(("d", 7), ⟨7, [⟨1, "t0", "t0",
            [⟨"a", "1"⟩, ⟨"b", "2"⟩]⟩]⟩)]⟩ = .ok (true, kv') ∧
        mibQueryInstance true kv' "d" 7 1 = .ok (some inst') ∧
        inst'.created = "t0" ∧ inst'.modified = "t1") := by
  constructor
  · exact (mib_set_change_detection (fun _ _ (v : Nat) _ => toString v) "t1"
      ⟨[("d", createNewDevice "t0" "d")], [(("d", 7), ⟨7, [⟨1, "t0", "t0",
        [⟨"a", "1"⟩, ⟨"b", "2"⟩]⟩]⟩)]⟩ "d" 7 1 [("a", 1), ("b", 2)]
      ⟨7, [⟨1, "t0", "t0", [⟨"a", "1"⟩, ⟨"b", "2"⟩]⟩]⟩
      ⟨1, "t0", "t0", [⟨"a", "1"⟩, ⟨"b", "2"⟩]⟩
      (by decide) (by decide) (by decide) (by decide) (by decide) (by decide)).1
      (by
        intro p hp
        simp only [List.mem_cons, List.not_mem_nil, or_false] at hp
        rcases hp with rfl | rfl
        · exact ⟨⟨"a", "1"⟩, by simp, rfl, by decide⟩
        · exact ⟨⟨"b", "2"⟩, by simp, rfl, by decide⟩)
  · exact (mib_set_change_detection (fun _ _ (v : Nat) _ => toString v) "t1"
      ⟨[("d", createNewDevice "t0" "d")], [(("d", 7), ⟨7, [⟨1, "t0", "t0",
        [⟨"a", "1"⟩, ⟨"b", "2"⟩]⟩]⟩)]⟩ "d" 7 1 [("a", 3)]
      ⟨7, [⟨1, "t0", "t0", [⟨"a", "1"⟩, ⟨"b", "2"⟩]⟩]⟩
      ⟨1, "t0", "t0", [⟨"a", "1"⟩, ⟨"b", "2"⟩]⟩
      (by decide) (by decide) (by decide) (by decide) (by decide) (by decide)).2
      ⟨("a", 3), by simp, by
        intro a ha hn
        simp only [List.mem_cons, List.not_mem_nil, or_false] at ha
        rcases ha with rfl | rfl
        · decide
        · exact absurd hn (by decide)⟩

/-! ## Alarm database (AlarmDbExternal)

The alarm variant stores the device blob, each class blob, and each
instance blob at separate kv paths (`"{d}"`, `"{d}/classes/{c}"`,
`"{d}/classes/{c}/instances/{i}"`); the dict-style backend raises KeyError
for a missing key, which the source catches.  A class blob is only ever
written as `AlarmClassData(class_id=class_id)` with no embedded
instances. -/

structure AlarmAttributeData where
  name : String
  value : String
deriving DecidableEq, Repr

structure AlarmInstanceData where
  instance_id : Nat
  created : String
  modified : String
  attributes : List AlarmAttributeData
deriving DecidableEq, Repr

structure AlarmClassData where
  class_id : Nat
  instances : List AlarmInstanceData
deriving DecidableEq, Repr

structure AlarmDeviceData where
  device_id : String
  created : String
  last_sync_time : String
  version : Nat
  last_alarm_sequence : Nat
deriving DecidableEq, Repr

structure AlarmKvStore where
  devices : List (String × AlarmDeviceData)
  classes : List ((String × Nat) × AlarmClassData)
  instances : List ((String × Nat × Nat) × AlarmInstanceData)
deriving DecidableEq, Repr

/-- `AlarmDbExternal.ALARM_BITMAP_KEY`. -/
def ALARM_BITMAP_KEY : String := "alarm_bit_map"

/-- `AlarmDbExternal._attribute_to_string`: alarm bitmaps are stored as
their decimal string. -/
def alarmAttributeToString (v : Nat) : String := toString v

/-- Value of the last stored attribute named `k` (the source's
`exist_attr_indexes` keeps the last index per name). -/
def alarmLastValue (attrs : List AlarmAttributeData) (k : String) : Option String :=
  match attrs with
  | [] => none
  | a :: rest =>
    (alarmLastValue rest k).elim (if a.name == k then some a.value else none) some

/-- `AlarmDbExternal._create_new_instance`. -/
def alarmCreateNewInstance (now : String) (instanceId : Nat)
    (attributes : List (String × Nat)) : AlarmInstanceData :=
  { instance_id := instanceId
    created := now
    modified := now
    attributes := attributes.map (fun p => ⟨p.1, alarmAttributeToString p.2⟩) }

/-- `AlarmDbExternal._add_new_class_and_instance`: write a bare class blob
and the new instance blob; always reports a change. -/
def alarmAddNewClassAndInstance (now : String) (deviceId : String)
    (classId instanceId : Nat) (attributes : List (String × Nat))
    (kv : AlarmKvStore) : Bool × AlarmKvStore :=
  (true,
    { kv with
      classes := assocSet kv.classes (deviceId, classId) ⟨classId, []⟩
      instances := assocSet kv.instances (deviceId, classId, instanceId)
        (alarmCreateNewInstance now instanceId attributes) })

/-- `AlarmDbExternal.set`.  A new instance under an existing class takes
the fallback path through `_add_new_class_and_instance`: the
`del self._kv_store[inst_path]` of a never-written instance key raises
KeyError, which the outer handler treats as a missing class. -/
def alarmSet (started : Bool) (now : String) (deviceId : String)
    (classId instanceId : Nat) (attributes : List (String × Nat))
    (kv : AlarmKvStore) : Except DbError (Bool × AlarmKvStore) :=
  if ¬ (classId ≤ 0xFFFF) then .error .valueError
  else if ¬ (instanceId ≤ 0xFFFF) then .error .valueError
  else if ¬ started then .error .databaseStateError
  else
    (assocGet kv.classes (deviceId, classId)).elim
      (.ok (alarmAddNewClassAndInstance now deviceId classId instanceId attributes kv))
      (fun _ =>
        (assocGet kv.instances (deviceId, classId, instanceId)).elim
          (.ok (alarmAddNewClassAndInstance now deviceId classId instanceId attributes kv))
          (fun instData =>
            let modified := attributes.any (fun p =>
              (alarmLastValue instData.attributes p.1).elim true
                (fun ov => ov != alarmAttributeToString p.2))
            let newData : AlarmInstanceData :=
              { instance_id := instanceId
                created := instData.created
                modified := now
                attributes := attributes.map (fun p => ⟨p.1, alarmAttributeToString p.2⟩) }
            if modified then
              .ok (true,
                { kv with instances :=
                    assocSet kv.instances (deviceId, classId, instanceId) newData })
            else .ok (false, kv)))

/-- `AlarmDbExternal.delete`: remove the instance key only — the class
blob is never touched, despite the docstring's claim that an
instance-less class is deleted as well. -/
def alarmDelete (started : Bool) (deviceId : String) (classId entityId : Nat)
    (kv : AlarmKvStore) : Except DbError (Bool × AlarmKvStore) :=
  if ¬ started then .error .databaseStateError
  else if ¬ (classId ≤ 0xFFFF) then .error .valueError
  else if ¬ (entityId ≤ 0xFFFF) then .error .valueError
  else
    (assocGet kv.instances (deviceId, classId, entityId)).elim
      (.ok (false, kv))
      (fun _ => .ok (true,
        { kv with instances := assocDelete kv.instances (deviceId, classId, entityId) }))

/-- `AlarmDbExternal.query` with only a device id: the device blob, or
`none` for the empty dictionary (the KeyError of an unknown device is
caught and turned into `{}`). -/
def alarmQueryDevice (kv : AlarmKvStore) (deviceId : String) :
    Except DbError (Option AlarmDeviceData) :=
  .ok (assocGet kv.devices deviceId)

/-- `AlarmDbExternal.query` with device and class ids: the class blob, or
`none` for the empty dictionary. -/
def alarmQueryClass (started : Bool) (kv : AlarmKvStore) (deviceId : String)
    (classId : Nat) : Except DbError (Option AlarmClassData) :=
  if ¬ started then .error .databaseStateError
  else if ¬ (classId ≤ 0xFFFF) then .error .valueError
  else .ok (assocGet kv.classes (deviceId, classId))

/-- `AlarmDbExternal.query` down to an instance: the instance blob, or
`none` for the empty dictionary. -/
def alarmQueryInstance (started : Bool) (kv : AlarmKvStore) (deviceId : String)
    (classId instanceId : Nat) : Except DbError (Option AlarmInstanceData) :=
  if ¬ started then .error .databaseStateError
  else if ¬ (classId ≤ 0xFFFF) then .error .valueError
  else if ¬ (instanceId ≤ 0xFFFF) then .error .valueError
  else .ok (assocGet kv.instances (deviceId, classId, instanceId))

/-! ## Alarm reconciliation (AlarmSynchronizer) -/

/-- `AlarmSynchronizer.process_alarm_data` for audit-generated updates
(`msg_seq_no = -1`, so the sequence-counter logic is skipped): read the
previous bitmap (0 when the instance is absent; a missing bitmap
attribute on an existing instance raises), persist the new bitmap through
`set` (whose failure is caught and logged), and emit clear/raise events
for the bitmap difference when an alarm manager is attached. -/
def processAlarmData (mgrAttached : Bool) (now : String) (deviceId : String)
    (classId entityId bitmap : Nat) (kv : AlarmKvStore) :
    Except DbError (AlarmKvStore × List AlarmEvent) :=
  let prevEntry := assocGet kv.instances (deviceId, classId, entityId)
  let prevBitmapOpt : Option Nat :=
    prevEntry.elim (some 0) (fun inst =>
      (alarmLastValue inst.attributes ALARM_BITMAP_KEY).map
        (fun s => (s.toNat?).getD 0))
  prevBitmapOpt.elim (.error .keyError) (fun prevBitmap =>
    let kv' :=
      match alarmSet true now deviceId classId entityId [(ALARM_BITMAP_KEY, bitmap)] kv with
      | .ok r => r.2
      | .error _ => kv
    .ok (kv', if mgrAttached then alarmEvents classId entityId prevBitmap bitmap else []))

/-- `AlarmSynchronizer.process_onu_only_diffs`: bitmap looked up in the
uploaded ONU table (a missing entry is logged and skipped), then processed
as new alarm data. -/
def processOnuOnlyDiffs (mgrAttached : Bool) (now : String) (deviceId : String)
    (onuOnly : List (Nat × Nat)) (onuDb : List ((Nat × Nat) × Nat))
    (kv : AlarmKvStore) : Except DbError (AlarmKvStore × List AlarmEvent) :=
  onuOnly.foldl
    (fun acc p =>
      match acc with
      | .error e => .error e
      | .ok (kv, evs) =>
        (assocGet onuDb p).elim (.ok (kv, evs)) (fun bm =>
          match processAlarmData mgrAttached now deviceId p.1 p.2 bm kv with
          | .error e => .error e
          | .ok (kv', evs') => .ok (kv', evs ++ evs')))
    (.ok (kv, []))

/-- `AlarmSynchronizer.process_olt_only_diffs`: each local-only entry is
processed with bitmap 0 (clearing its raised alarms) and then deleted from
the local store. -/
def processOltOnlyDiffs (mgrAttached : Bool) (now : String) (deviceId : String)
    (oltOnly : List (Nat × Nat)) (kv : AlarmKvStore) :
    Except DbError (AlarmKvStore × List AlarmEvent) :=
  oltOnly.foldl
    (fun acc p =>
      match acc with
      | .error e => .error e
      | .ok (kv, evs) =>
        match processAlarmData mgrAttached now deviceId p.1 p.2 0 kv with
        | .error e => .error e
        | .ok (kv', evs') =>
          match alarmDelete true deviceId p.1 p.2 kv' with
          | .error e => .error e
          | .ok (_, kv'') => .ok (kv'', evs ++ evs'))
    (.ok (kv, []))

/-- The bucketed result of an alarm audit (resync task). -/
structure AuditResults where
  onuOnly : Option (List (Nat × Nat))
  oltOnly : Option (List (Nat × Nat))
  attrDiffs : Option (List (Nat × Nat × String))
  onuDb : List ((Nat × Nat) × Nat)
  oltDb : List ((Nat × Nat) × Nat)
deriving Repr

/-- `AlarmSynchronizer.reconcile_alarm_table`: process device-only
entries, then local-only entries; when `attr_diffs` is present the source
invokes `self.process_attr_diffs(attr_diffs, olt_db, onu_db)` — three
positional arguments against a method defined as
`process_attr_diffs(self, attr_diffs, onu_db)` — so Python raises
TypeError before any differing entry is reconciled. -/
def reconcileAlarmTable (mgrAttached : Bool) (now : String) (deviceId : String)
    (results : AuditResults) (kv : AlarmKvStore) :
    Except DbError (AlarmKvStore × List AlarmEvent) :=
  match results.onuOnly.elim (.ok (kv, []))
      (fun l => processOnuOnlyDiffs mgrAttached now deviceId l results.onuDb kv) with
  | .error e => .error e
  | .ok (kv₁, evs₁) =>
    match results.oltOnly.elim (.ok (kv₁, []))
        (fun l => processOltOnlyDiffs mgrAttached now deviceId l kv₁) with
    | .error e => .error e
    | .ok (kv₂, evs₂) =>
      results.attrDiffs.elim (.ok (kv₂, evs₁ ++ evs₂)) (fun _ => .error .typeError)

/-! ## Supporting lemmas on assocDelete -/

theorem assocDelete_sublist {α β : Type} [BEq α] (l : List (α × β)) (k : α) :
    List.Sublist (assocDelete l k) l := by
  induction l with
  | nil => exact List.Sublist.refl _
  | cons p rest ih =>
    rw [assocDelete_cons]
    by_cases h : p.1 == k
    · rw [if_pos h]; exact List.sublist_cons_self p rest
    · rw [if_neg h]; exact List.Sublist.cons₂ p ih

theorem assocDelete_keys_nodup {α β : Type} [BEq α] (l : List (α × β)) (k : α)
    (hnd : (l.map Prod.fst).Nodup) : ((assocDelete l k).map Prod.fst).Nodup :=
  List.Nodup.sublist (List.Sublist.map Prod.fst (assocDelete_sublist l k)) hnd

theorem assocGet_assocDelete_of_none {α β : Type} [BEq α] (l : List (α × β))
    (k key : α) (h : assocGet l key = none) :
    assocGet (assocDelete l k) key = none := by
  induction l with
  | nil => rfl
  | cons p rest ih =>
    rw [assocGet_cons] at h
    by_cases hp : (p.1 == key) = true
    · rw [if_pos hp] at h; cases h
    · rw [if_neg hp] at h
      rw [assocDelete_cons]
      by_cases hq : (p.1 == k) = true
      · rw [if_pos hq]; exact h
      · rw [if_neg hq, assocGet_cons, if_neg hp]
        exact ih h

/-! ## Theorems for the delete / query / reset claims -/

/-- C5: `MibDbExternal.delete` on a started database reports `true` as
soon as the class blob exists, even for an instance id that was never
stored: here class 1 holds only instance 1 and deleting instance 2 leaves
the store untouched yet returns `true`, contradicting the documented
"False if it did not exist". -/
theorem mib_delete_true_for_missing_instance :
    mibDelete true "d" 1 2
        ⟨[("d", createNewDevice "t0" "d")], [(("d", 1), ⟨1, [⟨1, "t0", "t0", []⟩]⟩)]⟩
      = .ok (true,
        ⟨[("d", createNewDevice "t0" "d")], [(("d", 1), ⟨1, [⟨1, "t0", "t0", []⟩]⟩)]⟩) := by
  rfl

/-- C4: on the alarm variant, deleting the last (only) instance of class 1
returns `true` but leaves the class blob in the store, and the subsequent
class query returns the dictionary `{CLASS_ID_KEY: 1}` — not an empty
result — contradicting the delete docstring shared with the MIB variant.
On the MIB variant the same sequence does remove the class and the query
is empty. -/
theorem alarm_delete_last_instance_keeps_class_record :
    (alarmSet true "t1" "d" 1 2 [(ALARM_BITMAP_KEY, 5)] ⟨[("d", ⟨"d", "t0", "", 1, 0⟩)], [], []⟩
      = .ok (true, ⟨[("d", ⟨"d", "t0", "", 1, 0⟩)], [(("d", 1), ⟨1, []⟩)],
          [(("d", 1, 2), ⟨2, "t1", "t1", [⟨ALARM_BITMAP_KEY, "5"⟩]⟩)]⟩)) ∧
    (alarmDelete true "d" 1 2
        ⟨[("d", ⟨"d", "t0", "", 1, 0⟩)], [(("d", 1), ⟨1, []⟩)],
          [(("d", 1, 2), ⟨2, "t1", "t1", [⟨ALARM_BITMAP_KEY, "5"⟩]⟩)]⟩
      = .ok (true, ⟨[("d", ⟨"d", "t0", "", 1, 0⟩)], [(("d", 1), ⟨1, []⟩)], []⟩)) ∧
    (alarmQueryClass true ⟨[("d", ⟨"d", "t0", "", 1, 0⟩)], [(("d", 1), ⟨1, []⟩)], []⟩ "d" 1
      = .ok (some ⟨1, []⟩)) ∧
    (mibDelete true "d" 1 2 ⟨[("d", ⟨"d", "t0", "", 0, 1, [⟨1, []⟩], [], []⟩)],
        [(("d", 1), ⟨1, [⟨2, "t0", "t0", []⟩]⟩)]⟩
      = .ok (true, ⟨[("d", ⟨"d", "t0", "", 0, 1, [], [], []⟩)], []⟩)) ∧
    (mibQueryClass true ⟨[("d", ⟨"d", "t0", "", 0, 1, [], [], []⟩)], []⟩ "d" 1 = .ok none) := by
  refine ⟨rfl, rfl, rfl, rfl, rfl⟩

/-- C6: a started database queried for a device that was never added
returns the empty dictionary instead of raising: both the MIB and the
alarm variants swallow the miss (`query_data is None` / caught KeyError)
and return `{}`.  Absence at class granularity for a known device is an
empty result as well. -/
theorem query_unknown_device_returns_empty :
    (mibQueryDevice ⟨[], []⟩ "unknown" = .ok none) ∧
    (alarmQueryDevice ⟨[], [], []⟩ "unknown" = .ok none) ∧
    (mibQueryClass true ⟨[("d", createNewDevice "t0" "d")], []⟩ "d" 9 = .ok none) ∧
    (alarmQueryClass true ⟨[("d", ⟨"d", "t0", "", 1, 0⟩)], [], []⟩ "d" 9 = .ok none) := by
  refine ⟨rfl, rfl, rfl, rfl⟩

/-- C3: when the audit reports at least one bitmap attribute difference,
`reconcile_alarm_table` raises TypeError (arity mismatch in the
`process_attr_diffs` call), so the local entry keeps its stale bitmap
instead of being overwritten with the device's. -/
theorem reconcile_attr_diffs_raises_type_error :
    reconcileAlarmTable true "t1" "d"
        ⟨none, none, some [(1, 2, ALARM_BITMAP_KEY)], [((1, 2), 5)], [((1, 2), 3)]⟩
        ⟨[("d", ⟨"d", "t0", "", 1, 0⟩)], [(("d", 1), ⟨1, []⟩)],
          [(("d", 1, 2), ⟨2, "t0", "t0", [⟨ALARM_BITMAP_KEY, "3"⟩]⟩)]⟩
      = .error .typeError := by
  rfl

/-- C7 counterexample: `on_mib_reset` rebuilds the device blob with only
identity, timestamps, a zeroed counter and the version, so a stored
message-type list `[73]` is wiped — the claim's frame condition "only the
class/instance tree and the sync counter change" is violated. -/
theorem on_mib_reset_clears_message_types :
    ((assocGet (onMibReset "d"
        ⟨[("d", ⟨"d", "t0", "ls0", 5, 1, [⟨7, []⟩], [⟨6, "OntG"⟩], [73]⟩)],
          [(("d", 7), ⟨7, [⟨1, "t0", "t0", []⟩]⟩)]⟩).devices "d").map
      MibDeviceData.message_types = some []) ∧
    ((assocGet
        (⟨[("d", ⟨"d", "t0", "ls0", 5, 1, [⟨7, []⟩], [⟨6, "OntG"⟩], [73]⟩)],
          [(("d", 7), ⟨7, [⟨1, "t0", "t0", []⟩]⟩)]⟩ : MibKvStore).devices "d").map
      MibDeviceData.message_types = some [73]) ∧
    ((assocGet (onMibReset "d"
        ⟨[("d", ⟨"d", "t0", "ls0", 5, 1, [⟨7, []⟩], [⟨6, "OntG"⟩], [73]⟩)],
          [(("d", 7), ⟨7, [⟨1, "t0", "t0", []⟩]⟩)]⟩).devices "d").map
      MibDeviceData.message_types ≠
    (assocGet
        (⟨[("d", ⟨"d", "t0", "ls0", 5, 1, [⟨7, []⟩], [⟨6, "OntG"⟩], [73]⟩)],
          [(("d", 7), ⟨7, [⟨1, "t0", "t0", []⟩]⟩)]⟩ : MibKvStore).devices "d").map
      MibDeviceData.message_types) := by
  refine ⟨rfl, rfl, by decide⟩

theorem onMibReset_fold_devices (deviceId : String) (cs : List MibClassData) :
    ∀ kv : MibKvStore,
      (cs.foldl (fun acc c =>
        { acc with classes := assocDelete acc.classes (deviceId, c.class_id) }) kv).devices
      = kv.devices := by
  induction cs with
  | nil => intro kv; rfl
  | cons c rest ih => intro kv; rw [List.foldl_cons]; exact ih _

theorem onMibReset_fold_classes_ne (deviceId : String) (cs : List MibClassData)
    (key : String × Nat) (hne : key.1 ≠ deviceId) :
    ∀ kv : MibKvStore,
      assocGet (cs.foldl (fun acc c =>
        { acc with classes := assocDelete acc.classes (deviceId, c.class_id) }) kv).classes key
      = assocGet kv.classes key := by
  induction cs with
  | nil => intro kv; rfl
  | cons c rest ih =>
    intro kv
    rw [List.foldl_cons, ih]
    exact assocGet_assocDelete_ne _ _ _ (fun h => hne (congrArg Prod.fst h).symm)

theorem onMibReset_fold_keys_nodup (deviceId : String) (cs : List MibClassData) :
    ∀ kv : MibKvStore, (kv.classes.map Prod.fst).Nodup →
      ((cs.foldl (fun acc c =>
        { acc with classes := assocDelete acc.classes (deviceId, c.class_id) }) kv).classes.map
          Prod.fst).Nodup := by
  induction cs with
  | nil => intro kv h; exact h
  | cons c rest ih =>
    intro kv h
    rw [List.foldl_cons]
    exact ih _ (assocDelete_keys_nodup _ _ h)

theorem onMibReset_fold_none (deviceId : String) (cs : List MibClassData)
    (key : String × Nat) :
    ∀ kv : MibKvStore, assocGet kv.classes key = none →
      assocGet (cs.foldl (fun acc c =>
        { acc with classes := assocDelete acc.classes (deviceId, c.class_id) }) kv).classes key
      = none := by
  induction cs with
  | nil => intro kv h; exact h
  | cons c rest ih =>
    intro kv h
    rw [List.foldl_cons]
    exact ih _ (assocGet_assocDelete_of_none _ _ _ h)

theorem onMibReset_fold_deleted (deviceId : String) (cs : List MibClassData) :
    ∀ kv : MibKvStore, (kv.classes.map Prod.fst).Nodup →
      ∀ c ∈ cs,
        assocGet (cs.foldl (fun acc c =>
          { acc with classes := assocDelete acc.classes (deviceId, c.class_id) }) kv).classes
          (deviceId, c.class_id) = none := by
  induction cs with
  | nil => intro kv _ c hc; cases hc
  | cons c0 rest ih =>
    intro kv hnd c hc
    rw [List.foldl_cons]
    rcases List.mem_cons.mp hc with rfl | hc'
    · exact onMibReset_fold_none deviceId rest (deviceId, c.class_id) _
        (assocGet_assocDelete_self _ _ hnd)
    · exact ih _ (assocDelete_keys_nodup _ _ hnd) c hc'

/-- C7 amended: `on_mib_reset` on a device present in the store removes
every class blob listed in the device record, resets `mib_data_sync` to 0
and preserves `created` and `last_sync_time`; but the rebuilt device blob
also drops the class pointers, the supported managed-entity list and the
supported message-type list.  Other devices' blobs and other devices'
class paths are untouched. -/
theorem on_mib_reset_amended (kv : MibKvStore) (deviceId : String)
    (data : MibDeviceData) (h : assocGet kv.devices deviceId = some data)
    (hnd : (kv.classes.map Prod.fst).Nodup) :
    (assocGet (onMibReset deviceId kv).devices deviceId =
      some ⟨deviceId, data.created, data.last_sync_time, 0, CURRENT_VERSION, [], [], []⟩) ∧
    (∀ c ∈ data.classes,
      assocGet (onMibReset deviceId kv).classes (deviceId, c.class_id) = none) ∧
    (∀ d' : String, d' ≠ deviceId →
      assocGet (onMibReset deviceId kv).devices d' = assocGet kv.devices d') ∧
    (∀ key : String × Nat, key.1 ≠ deviceId →
      assocGet (onMibReset deviceId kv).classes key = assocGet kv.classes key) := by
  refine ⟨?_, ?_, ?_, ?_⟩
  · simp only [onMibReset, h, Option.elim_some]
    exact assocGet_assocSet_self _ _ _
  · intro c hc
    simp only [onMibReset, h, Option.elim_some]
    exact onMibReset_fold_deleted deviceId data.classes kv hnd c hc
  · intro d' hd'
    simp only [onMibReset, h, Option.elim_some]
    rw [assocGet_assocSet_ne _ _ _ _ (fun he => hd' he.symm)]
    rw [onMibReset_fold_devices]
  · intro key hkey
    simp only [onMibReset, h, Option.elim_some]
    exact onMibReset_fold_classes_ne deviceId data.classes key hkey kv

/-- C7 amended witness: evaluating the reset on a concrete store with one
pointed-to class, a second device and a foreign class path. -/
theorem on_mib_reset_amended_witness :
    (assocGet (onMibReset "d"
        ⟨[("d", ⟨"d", "t0", "ls0", 5, 1, [⟨7, []⟩], [⟨6, "OntG"⟩], [73]⟩),
          ("e", ⟨"e", "t9", "", 2, 1, [], [], []⟩)],
          [(("d", 7), ⟨7, [⟨1, "t0", "t0", []⟩]⟩), (("e", 3), ⟨3, []⟩)]⟩).devices "d" =
      some ⟨"d", "t0", "ls0", 0, CURRENT_VERSION, [], [], []⟩) ∧
    (∀ c ∈ [(⟨7, []⟩ : MibClassData)],
      assocGet (onMibReset "d"
        ⟨[("d", ⟨"d", "t0", "ls0", 5, 1, [⟨7, []⟩], [⟨6, "OntG"⟩], [73]⟩),
          ("e", ⟨"e", "t9", "", 2, 1, [], [], []⟩)],
          [(("d", 7), ⟨7, [⟨1, "t0", "t0", []⟩]⟩), (("e", 3), ⟨3, []⟩)]⟩).classes
        ("d", c.class_id) = none) ∧
    (∀ d' : String, d' ≠ "d" →
      assocGet (onMibReset "d"
        ⟨[("d", ⟨"d", "t0", "ls0", 5, 1, [⟨7, []⟩], [⟨6, "OntG"⟩], [73]⟩),
          ("e", ⟨"e", "t9", "", 2, 1, [], [], []⟩)],
          [(("d", 7), ⟨7, [⟨1, "t0", "t0", []⟩]⟩), (("e", 3), ⟨3, []⟩)]⟩).devices d' =
      assocGet [("d", (⟨"d", "t0", "ls0", 5, 1, [⟨7, []⟩], [⟨6, "OntG"⟩], [73]⟩ : MibDeviceData)),
        ("e", ⟨"e", "t9", "", 2, 1, [], [], []⟩)] d') ∧
    (∀ key : String × Nat, key.1 ≠ "d" →
      assocGet (onMibReset "d"
        ⟨[("d", ⟨"d", "t0", "ls0", 5, 1, [⟨7, []⟩], [⟨6, "OntG"⟩], [73]⟩),
          ("e", ⟨"e", "t9", "", 2, 1, [], [], []⟩)],
          [(("d", 7), ⟨7, [⟨1, "t0", "t0", []⟩]⟩), (("e", 3), ⟨3, []⟩)]⟩).classes key =
      assocGet [(("d", 7), (⟨7, [⟨1, "t0", "t0", []⟩]⟩ : MibClassData)), (("e", 3), ⟨3, []⟩)] key) :=
  on_mib_reset_amended
    ⟨[("d", ⟨"d", "t0", "ls0", 5, 1, [⟨7, []⟩], [⟨6, "OntG"⟩], [73]⟩),
      ("e", ⟨"e", "t9", "", 2, 1, [], [], []⟩)],
      [(("d", 7), ⟨7, [⟨1, "t0", "t0", []⟩]⟩), (("e", 3), ⟨3, []⟩)]⟩
    "d" ⟨"d", "t0", "ls0", 5, 1, [⟨7, []⟩], [⟨6, "OntG"⟩], [73]⟩ (by decide) (by decide)

/-! ## Alarm synchronizer shutdown (C8)

A twisted deferred fires a callback unless it has been called or
cancelled; `cancel()` on a pending deferred fires its errback, marking it
called and cancelled, while a second `cancel()` is a no-op swallowed by
the bare `except` around the loop. -/

structure Deferred where
  called : Bool
  cancelled : Bool
deriving DecidableEq, Repr

/-- `d.cancel()` guarded by `if d is not None and not d.called`. -/
def pyCancel (d : Deferred) : Deferred :=
  if d.called then d else ⟨true, true⟩

/-- The synchronizer's mutable fields touched by `on_enter_disabled`. -/
structure AlarmSyncShutdownState where
  deferredTimer : Option Deferred
  taskDeferred : Option Deferred
  currentTaskRunning : Bool
  subGet : Bool
  subNotif : Bool
deriving DecidableEq, Repr

/-- `AlarmSynchronizer._cancel_deferred`: both slots are dropped to None,
but the cancellation loop iterates `[d1, d1]` — the timer deferred twice —
so the task-result deferred object is never cancelled.  The result pairs
the new state with the final status of the two dropped deferred
objects. -/
def cancelDeferred (st : AlarmSyncShutdownState) :
    AlarmSyncShutdownState × Option Deferred × Option Deferred :=
  let d1 := st.deferredTimer
  let d2 := st.taskDeferred
  let d1 := d1.map pyCancel
  let d1 := d1.map pyCancel
  ({ st with deferredTimer := none, taskDeferred := none }, d1, d2)

/-- `AlarmSynchronizer.on_enter_disabled`: cancel deferreds, stop the
in-flight task, drop every notification subscription. -/
def onEnterDisabled (st : AlarmSyncShutdownState) :
    AlarmSyncShutdownState × Option Deferred × Option Deferred :=
  let r := cancelDeferred st
  ({ r.1 with currentTaskRunning := false, subGet := false, subNotif := false },
    r.2.1, r.2.2)

/-- C8: stopping the synchronizer with both a pending timer deferred and a
pending task-result deferred stops the task and unsubscribes, and cancels
the timer deferred — but the task-result deferred comes back neither
called nor cancelled (the loop reads `[d1, d1]` instead of `[d1, d2]`),
so its callback can still fire after stop. -/
theorem on_enter_disabled_leaves_task_deferred_uncancelled :
    onEnterDisabled ⟨some ⟨false, false⟩, some ⟨false, false⟩, true, true, true⟩
      = (⟨none, none, false, false, false⟩, some ⟨true, true⟩, some ⟨false, false⟩) := by
  rfl

/-! ## Lazy-write MIB database (C9)

`MibDbLazyWriteDict` extends the in-memory `MibDbVolatileDict`, whose
source is not part of this tree; the volatile operations below are
modelled from the spec. -/

/-- Modelled from the spec: the volatile database's per-device record —
`mib_data_sync` plus the class/instance attribute tree (§3 Data Model,
§4.1 Entity Database); the missing source is `mib_db_dict.py`
(`MibDbVolatileDict`). -/
structure VolatileDevice where
  mds : Nat
  tree : List ((Nat × Nat) × List (String × String))
deriving DecidableEq, Repr

/-- Modelled from the spec: the volatile database's device map. -/
structure VolatileDb where
  data : List (String × VolatileDevice)
deriving DecidableEq, Repr

/-- Modelled from the spec: `MibDbVolatileDict.set` upserts one
instance's attributes and reports whether the stored content actually
changed (§4.1: "Returns whether anything actually changed"). -/
def volatileSet (deviceId : String) (classId entityId : Nat)
    (attributes : List (String × String)) (db : VolatileDb) : Bool × VolatileDb :=
  (assocGet db.data deviceId).elim (false, db) (fun d =>
    let old := assocGet d.tree (classId, entityId)
    if old = some attributes then (false, db)
    else (true, ⟨assocSet db.data deviceId
      { d with tree := assocSet d.tree (classId, entityId) attributes }⟩))

/-- Modelled from the spec: `MibDbVolatileDict.remove` drops the device
subtree (§4.1 `remove`). -/
def volatileRemove (deviceId : String) (db : VolatileDb) : VolatileDb :=
  ⟨assocDelete db.data deviceId⟩

/-- Modelled from the spec: `MibDbVolatileDict.on_mib_reset` clears the
tree and zeroes the counter, keeping the device present (§4.1). -/
def volatileOnMibReset (deviceId : String) (db : VolatileDb) : VolatileDb :=
  (assocGet db.data deviceId).elim db (fun _ =>
    ⟨assocSet db.data deviceId ⟨0, []⟩⟩)

/-- Modelled from the spec: `MibDbVolatileDict.save_mib_data_sync` (§4.1
narrow accessor). -/
def volatileSaveMibDataSync (deviceId : String) (value : Nat) (db : VolatileDb) :
    VolatileDb :=
  (assocGet db.data deviceId).elim db (fun d =>
    ⟨assocSet db.data deviceId { d with mds := value }⟩)

/-- The `_lazymetadata` entry of one device; the device has a running
`LoopingCall` ticker exactly while its entry exists. -/
structure LazyMeta where
  lastWrite : Option String
  dirty : Bool
  pendingDelete : Bool
deriving DecidableEq, Repr

/-- `MibDbLazyWriteDict`: the inherited volatile map, the lazy metadata,
and the remote kv store holding one serialized device record per
device. -/
structure LazyDb where
  vol : VolatileDb
  meta : List (String × LazyMeta)
  remote : List (String × VolatileDevice)
deriving DecidableEq, Repr

/-- `set` is NOT overridden by `MibDbLazyWriteDict`: the inherited
volatile write happens and the lazy metadata is untouched. -/
def lazySet (deviceId : String) (classId entityId : Nat)
    (attributes : List (String × String)) (db : LazyDb) : Bool × LazyDb :=
  let r := volatileSet deviceId classId entityId attributes db.vol
  (r.1, { db with vol := r.2 })

/-- `MibDbLazyWriteDict.remove`: the inherited removal, then the dirty
and pending-delete flags are raised. -/
def lazyRemove (deviceId : String) (db : LazyDb) : LazyDb :=
  { db with
    vol := volatileRemove deviceId db.vol
    meta := (assocGet db.meta deviceId).elim db.meta (fun m =>
      assocSet db.meta deviceId { m with dirty := true, pendingDelete := true }) }

/-- `MibDbLazyWriteDict.on_mib_reset`: inherited reset, then dirty. -/
def lazyOnMibReset (deviceId : String) (db : LazyDb) : LazyDb :=
  { db with
    vol := volatileOnMibReset deviceId db.vol
    meta := (assocGet db.meta deviceId).elim db.meta (fun m =>
      assocSet db.meta deviceId { m with dirty := true }) }

/-- `MibDbLazyWriteDict.save_mib_data_sync`: inherited save, then dirty. -/
def lazySaveMibDataSync (deviceId : String) (value : Nat) (db : LazyDb) : LazyDb :=
  { db with
    vol := volatileSaveMibDataSync deviceId value db.vol
    meta := (assocGet db.meta deviceId).elim db.meta (fun m =>
      assocSet db.meta deviceId { m with dirty := true }) }

/-- `MibDbLazyWriteDict._sync`: with the pending-delete flag set the
remote record is deleted and the metadata entry (with its ticker) is
removed; otherwise the device record is written remotely, the last-write
time stamped and the dirty flag cleared. -/
def lazySync (now : String) (deviceId : String) (db : LazyDb) : LazyDb :=
  (assocGet db.meta deviceId).elim db (fun m =>
    if m.pendingDelete then
      { db with
        remote := assocDelete db.remote deviceId
        meta := assocDelete db.meta deviceId }
    else
      (assocGet db.vol.data deviceId).elim db (fun d =>
        { db with
          remote := assocSet db.remote deviceId d
          meta := assocSet db.meta deviceId ⟨some now, false, m.pendingDelete⟩ }))

/-- `MibDbLazyWriteDict._check_dirty`: the 60-second tick syncs only when
the dirty flag is set. -/
def lazyCheckDirty (now : String) (deviceId : String) (db : LazyDb) : LazyDb :=
  (assocGet db.meta deviceId).elim db (fun m =>
    if m.dirty then lazySync now deviceId db else db)

/-- C9 counterexample: on a clean lazy database, the inherited `set`
mutates the stored tree and reports the change, yet the device's dirty
flag stays `false` — so not every mutating operation marks the device
dirty, and a subsequent tick writes nothing. -/
theorem lazy_set_does_not_mark_dirty :
    ((lazySet "d" 1 1 [("a", "1")]
        ⟨⟨[("d", ⟨0, []⟩)]⟩, [("d", ⟨some "t0", false, false⟩)], [("d", ⟨0, []⟩)]⟩).1
      = true) ∧
    ((lazySet "d" 1 1 [("a", "1")]
        ⟨⟨[("d", ⟨0, []⟩)]⟩, [("d", ⟨some "t0", false, false⟩)], [("d", ⟨0, []⟩)]⟩).2.vol
      = ⟨[("d", ⟨0, [((1, 1), [("a", "1")])]⟩)]⟩) ∧
    ((assocGet (lazySet "d" 1 1 [("a", "1")]
        ⟨⟨[("d", ⟨0, []⟩)]⟩, [("d", ⟨some "t0", false, false⟩)], [("d", ⟨0, []⟩)]⟩).2.meta
        "d").map LazyMeta.dirty = some false) ∧
    (lazyCheckDirty "t1" "d"
        (lazySet "d" 1 1 [("a", "1")]
          ⟨⟨[("d", ⟨0, []⟩)]⟩, [("d", ⟨some "t0", false, false⟩)], [("d", ⟨0, []⟩)]⟩).2
      = (lazySet "d" 1 1 [("a", "1")]
          ⟨⟨[("d", ⟨0, []⟩)]⟩, [("d", ⟨some "t0", false, false⟩)], [("d", ⟨0, []⟩)]⟩).2) := by
  refine ⟨rfl, rfl, rfl, rfl⟩

/-- C9 amended: the overridden mutators `remove`, `on_mib_reset` and
`save_mib_data_sync` do set the device's dirty flag (`remove` also sets
pending-delete); the periodic tick is a no-op while the flag is clear,
writes the device record remotely and clears the flag when it is set, and
with pending-delete set it deletes the remote record and removes the
metadata entry, stopping the ticker. -/
theorem lazy_write_dirty_flag_amended (db : LazyDb) (deviceId : String)
    (m : LazyMeta) (now : String)
    (hm : assocGet db.meta deviceId = some m)
    (hrnd : (db.remote.map Prod.fst).Nodup)
    (hmnd : (db.meta.map Prod.fst).Nodup) :
    ((assocGet (lazyRemove deviceId db).meta deviceId).map
        (fun x => (x.dirty, x.pendingDelete)) = some (true, true)) ∧
    ((assocGet (lazyOnMibReset deviceId db).meta deviceId).map LazyMeta.dirty = some true) ∧
    (∀ v : Nat, (assocGet (lazySaveMibDataSync deviceId v db).meta deviceId).map
        LazyMeta.dirty = some true) ∧
    (m.dirty = false → lazyCheckDirty now deviceId db = db) ∧
    (m.dirty = true → m.pendingDelete = false →
      ∀ d : VolatileDevice, assocGet db.vol.data deviceId = some d →
        assocGet (lazyCheckDirty now deviceId db).remote deviceId = some d ∧
        assocGet (lazyCheckDirty now deviceId db).meta deviceId =
          some ⟨some now, false, false⟩) ∧
    (m.dirty = true → m.pendingDelete = true →
      assocGet (lazyCheckDirty now deviceId db).remote deviceId = none ∧
      assocGet (lazyCheckDirty now deviceId db).meta deviceId = none) := by
  refine ⟨?_, ?_, ?_, ?_, ?_, ?_⟩
  · simp only [lazyRemove, hm, Option.elim_some, assocGet_assocSet_self]
    rfl
  · simp only [lazyOnMibReset, hm, Option.elim_some, assocGet_assocSet_self]
    rfl
  · intro v
    simp only [lazySaveMibDataSync, hm, Option.elim_some, assocGet_assocSet_self]
    rfl
  · intro hdirty
    simp only [lazyCheckDirty, hm, Option.elim_some, hdirty]
    rfl
  · intro hdirty hpd d hd
    simp only [lazyCheckDirty, hm, Option.elim_some, hdirty, if_pos,
      lazySync, hpd, hd]
    constructor
    · exact assocGet_assocSet_self _ _ _
    · exact assocGet_assocSet_self _ _ _
  · intro hdirty hpd
    simp only [lazyCheckDirty, hm, Option.elim_some, hdirty, if_pos,
      lazySync, hpd]
    constructor
    · exact assocGet_assocDelete_self _ _ hrnd
    · exact assocGet_assocDelete_self _ _ hmnd

/-- C9 amended witness: the tick behavior evaluated on concrete clean,
dirty and pending-delete stores. -/
theorem lazy_write_dirty_flag_amended_witness :
    ((assocGet (lazyRemove "d"
        ⟨⟨[("d", ⟨3, []⟩)]⟩, [("d", ⟨some "t0", true, false⟩)], [("d", ⟨3, []⟩)]⟩).meta
        "d").map (fun x => (x.dirty, x.pendingDelete)) = some (true, true)) ∧
    ((assocGet (lazyOnMibReset "d"
        ⟨⟨[("d", ⟨3, []⟩)]⟩, [("d", ⟨some "t0", true, false⟩)], [("d", ⟨3, []⟩)]⟩).meta
        "d").map LazyMeta.dirty = some true) ∧
    (∀ v : Nat, (assocGet (lazySaveMibDataSync "d" v
        ⟨⟨[("d", ⟨3, []⟩)]⟩, [("d", ⟨some "t0", true, false⟩)], [("d", ⟨3, []⟩)]⟩).meta
        "d").map LazyMeta.dirty = some true) ∧
    ((⟨some "t0", true, false⟩ : LazyMeta).dirty = false →
      lazyCheckDirty "t1" "d"
        ⟨⟨[("d", ⟨3, []⟩)]⟩, [("d", ⟨some "t0", true, false⟩)], [("d", ⟨3, []⟩)]⟩
      = ⟨⟨[("d", ⟨3, []⟩)]⟩, [("d", ⟨some "t0", true, false⟩)], [("d", ⟨3, []⟩)]⟩) ∧
    ((⟨some "t0", true, false⟩ : LazyMeta).dirty = true →
      (⟨some "t0", true, false⟩ : LazyMeta).pendingDelete = false →
      ∀ d : VolatileDevice,
        assocGet (⟨⟨[("d", ⟨3, []⟩)]⟩, [("d", ⟨some "t0", true, false⟩)],
          [("d", ⟨3, []⟩)]⟩ : LazyDb).vol.data "d" = some d →
        assocGet (lazyCheckDirty "t1" "d"
          ⟨⟨[("d", ⟨3, []⟩)]⟩, [("d", ⟨some "t0", true, false⟩)], [("d", ⟨3, []⟩)]⟩).remote
          "d" = some d ∧
        assocGet (lazyCheckDirty "t1" "d"
          ⟨⟨[("d", ⟨3, []⟩)]⟩, [("d", ⟨some "t0", true, false⟩)], [("d", ⟨3, []⟩)]⟩).meta
          "d" = some ⟨some "t1", false, false⟩) ∧
    ((⟨some "t0", true, false⟩ : LazyMeta).dirty = true →
      (⟨some "t0", true, false⟩ : LazyMeta).pendingDelete = true →
      assocGet (lazyCheckDirty "t1" "d"
        ⟨⟨[("d", ⟨3, []⟩)]⟩, [("d", ⟨some "t0", true, false⟩)], [("d", ⟨3, []⟩)]⟩).remote
        "d" = none ∧
      assocGet (lazyCheckDirty "t1" "d"
        ⟨⟨[("d", ⟨3, []⟩)]⟩, [("d", ⟨some "t0", true, false⟩)], [("d", ⟨3, []⟩)]⟩).meta
        "d" = none) :=
  lazy_write_dirty_flag_amended
    ⟨⟨[("d", ⟨3, []⟩)]⟩, [("d", ⟨some "t0", true, false⟩)], [("d", ⟨3, []⟩)]⟩
    "d" ⟨some "t0", true, false⟩ "t1" (by decide) (by decide) (by decide)

/-! ## Agent device map (C10) -/

/-- `OpenOMCIAgent`'s device map, with the device-entry type abstract. -/
structure AgentState (D : Type) where
  devices : List (String × D)
deriving DecidableEq, Repr

/-- `OpenOMCIAgent.add_device`: return the existing entry when the device
id is already present; otherwise build a fresh `OnuDeviceEntry` and store
it.  No error is ever raised for duplicates. -/
def addDevice {D : Type} (st : AgentState D) (deviceId : String)
    (mkEntry : Unit → D) : D × AgentState D :=
  (assocGet st.devices deviceId).elim
    (let d := mkEntry ()
     (d, ⟨assocSet st.devices deviceId d⟩))
    (fun d => (d, st))

/-- C10: `add_device` with a device id already in the agent's map returns
the existing handle and leaves the map unchanged (no AlreadyExists error,
no replacement), so a second call is idempotent — unlike the Entity
Database's `add`, which raises KeyError for a duplicate device unless
`overwrite` is set. -/
theorem add_device_idempotent {D : Type} (st : AgentState D) (deviceId : String)
    (mk mk' : Unit → D) (d : D)
    (h : assocGet st.devices deviceId = some d) :
    addDevice st deviceId mk = (d, st) ∧
    addDevice (addDevice st deviceId mk).2 deviceId mk' = (d, st) ∧
    (∀ (kv : MibKvStore) (devData : MibDeviceData) (now : String),
      assocGet kv.devices deviceId = some devData →
      mibAdd now deviceId false kv = .error .keyError) := by
  have h1 : addDevice st deviceId mk = (d, st) := by
    simp only [addDevice, h, Option.elim_some]
  refine ⟨h1, ?_, ?_⟩
  · rw [h1]
    simp only [addDevice, h, Option.elim_some]
  · intro kv devData now hkv
    simp only [mibAdd, hkv]
    rfl

/-- C10 witness: a concrete agent map with an existing entry for `"d"`. -/
theorem add_device_idempotent_witness :
    (addDevice (⟨[("d", 42)]⟩ : AgentState Nat) "d" (fun _ => 99)
      = (42, ⟨[("d", 42)]⟩)) ∧
    (addDevice (addDevice (⟨[("d", 42)]⟩ : AgentState Nat) "d" (fun _ => 99)).2 "d"
        (fun _ => 7) = (42, ⟨[("d", 42)]⟩)) ∧
    (∀ (kv : MibKvStore) (devData : MibDeviceData) (now : String),
      assocGet kv.devices "d" = some devData →
      mibAdd now "d" false kv = .error .keyError) :=
  add_device_idempotent (⟨[("d", 42)]⟩ : AgentState Nat) "d" (fun _ => 99)
    (fun _ => 7) 42 (by decide)

end PyVoltha
